import Mathlib

/-!
Shallow embedding of the citation-tracking core of the `elephant` repository
(`src/db/database.py`, `src/analytics/recommendations.py`, `src/core/config.py`),
together with theorems checking the natural-language specification against it.

The SQLite store is modelled as explicit lists of rows plus the AUTOINCREMENT
counters and the connection-level `sqlite3_last_insert_rowid` value (0 on a fresh
connection, updated by every successful INSERT).  Timestamp columns
(`first_seen`, `last_updated`, `added_date`, `generated_date`, `timestamp`) hold
wall-clock values never read by any modelled operation and are omitted, as is the
opaque `metadata` JSON blob of the `citations` table, which is written but never
read back.
-/

namespace Elephant

open scoped List

/-- Python truthiness of an `Optional[str]`: `None` and the empty string are falsy. -/
def truthyStr : Option String → Bool
  | some s => !(s == "")
  | none => false

/-- ASCII lower-casing of one character, as used by SQLite's default `LIKE`. -/
def lowerAscii (c : Char) : Char :=
  if 'A' ≤ c ∧ c ≤ 'Z' then Char.ofNat (c.toNat + 32) else c

/-- Disjunction of a predicate over every suffix of a text, the semantics of a
leading `%` wildcard. -/
def likeStar (f : List Char → Bool) : List Char → Bool
  | [] => f []
  | c :: ts => f (c :: ts) || likeStar f ts

/-- SQLite `LIKE` pattern matching: `%` matches any sequence, `_` any single
character, and plain characters compare case-insensitively on ASCII letters. -/
def likeMatch : List Char → List Char → Bool
  | [], t => t.isEmpty
  | p :: ps, t =>
    if p == '%' then likeStar (likeMatch ps) t
    else
      match t with
      | [] => false
      | c :: ts =>
        if p == '_' then likeMatch ps ts
        else (lowerAscii p == lowerAscii c) && likeMatch ps ts

/-- The `LIKE` pattern the tracking lookup builds from a title argument. -/
def likePattern (title : String) : List Char :=
  '%' :: title.toList ++ ['%']

/-- Case-sensitive prefix test on character lists (spec-side notion). -/
def hasPrefixCS : List Char → List Char → Bool
  | [], _ => true
  | _ :: _, [] => false
  | c :: cs, d :: ds => c == d && hasPrefixCS cs ds

/-- Case-sensitive substring test on character lists (spec-side notion). -/
def hasSubstrCS (n : List Char) : List Char → Bool
  | [] => n.isEmpty
  | d :: ds => hasPrefixCS n (d :: ds) || hasSubstrCS n ds

/-- SQL `ORDER BY` comparison on a nullable INTEGER column: `NULL` sorts below
every value. -/
def optIntLe : Option Int → Option Int → Bool
  | none, _ => true
  | some _, none => false
  | some a, some b => a ≤ b

/-- The parse outcome of the TEXT stored in the `authors` column: either a JSON
array of strings (what `json.dumps` of a non-empty author list produces) or text
that `json.loads` rejects / does not yield a list (swallowed by the bare
`except` in the collaboration rule). -/
inductive AuthorsBlob where
  | valid (authors : List String)
  | malformed
deriving Repr, DecidableEq

/-- One row of the `papers` table (timestamp columns omitted, see module header). -/
structure PaperRow where
  id : Nat
  title : String
  doi : Option String := none
  arxiv_id : Option String := none
  year : Option Int := none
  venue : Option String := none
  authors : Option AuthorsBlob := none
  abstract : Option String := none
  url : Option String := none
deriving Repr, DecidableEq

/-- One row of the `citations` table (timestamp and metadata omitted). -/
structure CitationRow where
  id : Nat
  paper_id : Nat
  platform : String
  citation_count : Int
  h_index : Option Int := none
deriving Repr, DecidableEq

/-- One row of the `tracked_papers` table (added_date omitted). -/
structure TrackedRow where
  id : Nat
  paper_id : Nat
  alert_enabled : Bool := true
deriving Repr, DecidableEq

/-- One row of the `sync_status` table; `last_sync` is an opaque timestamp text. -/
structure SyncRow where
  id : Nat
  platform : String
  last_sync : Option String := none
  status : Option String := none
  error_message : Option String := none
deriving Repr, DecidableEq

/-- The SQLite store after `Database.initialize`, plus the connection-level
`sqlite3_last_insert_rowid` value that `cursor.lastrowid` reflects. -/
structure DB where
  papers : List PaperRow := []
  citations : List CitationRow := []
  tracked_papers : List TrackedRow := []
  sync_status : List SyncRow := []
  next_paper_id : Nat := 1
  next_citation_id : Nat := 1
  next_tracked_id : Nat := 1
  last_insert_rowid : Nat := 0
deriving Repr, DecidableEq

/-- A freshly initialized, empty store on a fresh connection. -/
def DB.empty : DB := {}

/-- `Database.add_paper`.  The `INSERT OR IGNORE` is governed by the schema's
`UNIQUE(doi, arxiv_id)` constraint; SQLite treats `NULL`s as distinct in unique
indices, so the insert conflicts only when both columns are non-`NULL` and equal
to an existing row's pair.  `authors_json = json.dumps(authors) if authors else
None` stores `NULL` for a `None` or empty author list.  The fallback `SELECT id
FROM papers WHERE doi = ? OR arxiv_id = ?` uses SQL `=`, which never matches a
`NULL` parameter; `fetchone` without `ORDER BY` yields the lowest rowid, i.e. the
first row in insertion order. -/
def DB.add_paper (db : DB) (title : String)
    (doi : Option String := none) (arxiv_id : Option String := none)
    (year : Option Int := none) (venue : Option String := none)
    (authors : Option (List String) := none) (abstract : Option String := none)
    (url : Option String := none) : DB × Option Nat :=
  let authors_json : Option AuthorsBlob :=
    match authors with
    | some (a :: rest) => some (AuthorsBlob.valid (a :: rest))
    | _ => none
  let conflict := db.papers.any fun r =>
    doi.isSome && arxiv_id.isSome && r.doi == doi && r.arxiv_id == arxiv_id
  let db1 : DB :=
    if conflict then db
    else
      { db with
        papers := db.papers ++
          [{ id := db.next_paper_id, title, doi, arxiv_id, year, venue,
             authors := authors_json, abstract, url }]
        next_paper_id := db.next_paper_id + 1
        last_insert_rowid := db.next_paper_id }
  let paper_id : Option Nat :=
    if db1.last_insert_rowid == 0 then
      (db1.papers.find? fun r =>
        (doi.isSome && r.doi == doi) || (arxiv_id.isSome && r.arxiv_id == arxiv_id)).map
        (·.id)
    else some db1.last_insert_rowid
  (db1, paper_id)

/-- `Database.add_citation_record`.  The accompanying `UPDATE` of
`papers.last_updated` only touches a timestamp column, which is outside the
model. -/
def DB.add_citation_record (db : DB) (paper_id : Nat) (platform : String)
    (citation_count : Int) (h_index : Option Int := none) : DB :=
  { db with
    citations := db.citations ++
      [{ id := db.next_citation_id, paper_id, platform, citation_count, h_index }]
    next_citation_id := db.next_citation_id + 1
    last_insert_rowid := db.next_citation_id }

/-- The rows the `get_total_citations` subquery ranges over: all of `citations`,
optionally restricted by `WHERE platform = ?`. -/
def DB.citationRows (db : DB) (platform : Option String) : List CitationRow :=
  match platform with
  | some p => db.citations.filter fun c => c.platform == p
  | none => db.citations

/-- `Database.get_total_citations`: `SELECT SUM(citation_count) FROM (SELECT
paper_id, MAX(citation_count) ... GROUP BY paper_id)`.  `SUM` over no rows is
`NULL`, and the Python wrapper `result[0] if result and result[0] else 0` maps
both `NULL` and `0` to `0`. -/
def DB.get_total_citations (db : DB) (platform : Option String := none) : Int :=
  let rows := db.citationRows platform
  let ids := (rows.map (·.paper_id)).dedup
  let maxima := ids.filterMap fun pid =>
    ((rows.filter fun c => c.paper_id == pid).map (·.citation_count)).max?
  let total : Option Int := if maxima.isEmpty then none else some maxima.sum
  match total with
  | none => 0
  | some t => if t == 0 then 0 else t

/-- `Database.get_paper_count`: `SELECT COUNT(*) FROM papers`. -/
def DB.get_paper_count (db : DB) : Nat :=
  db.papers.length

/-- The maximum citation count recorded for one paper, with the SQL `NULL` of an
empty `LEFT JOIN` group made explicit. -/
def DB.maxCitation (db : DB) (pid : Nat) : Option Int :=
  ((db.citations.filter fun c => c.paper_id == pid).map (·.citation_count)).max?

/-- `Database.get_papers_with_latest_citations`: every paper joined with
`COALESCE(MAX(c.citation_count), 0)`, ordered by citations descending.  `GROUP BY
p.id` leaves one row per paper because `id` is the AUTOINCREMENT primary key. -/
def DB.get_papers_with_latest_citations (db : DB) : List (PaperRow × Int) :=
  let rows := db.papers.map fun p => (p, (db.maxCitation p.id).getD 0)
  rows.mergeSort fun a b => decide (b.2 ≤ a.2)

/-- `Database.get_tracked_papers`: papers having at least one `tracked_papers`
row, joined with `MAX(c.citation_count)` — without `COALESCE`, so a paper with no
observations keeps the SQL `NULL`.  `ORDER BY citations DESC` puts `NULL`s last,
since SQL sorts `NULL` below every value. -/
def DB.get_tracked_papers (db : DB) : List (PaperRow × Option Int) :=
  let rows := (db.papers.filter fun p =>
      db.tracked_papers.any fun tp => tp.paper_id == p.id).map
    fun p => (p, db.maxCitation p.id)
  rows.mergeSort fun a b => optIntLe b.2 a.2

/-- `Database.add_tracked_paper`: resolve the paper by truthy `doi`, else truthy
`arxiv_id`, else truthy `title` via `LIKE '%title%'`; with no truthy argument or
no matching row, return `None` untouched.  On a hit, `INSERT OR IGNORE INTO
tracked_papers (paper_id)` — the table has no uniqueness constraint on
`paper_id`, so the `OR IGNORE` never fires and a fresh row is always inserted. -/
def DB.add_tracked_paper (db : DB) (doi : Option String := none)
    (arxiv_id : Option String := none) (title : Option String := none) :
    DB × Option Nat :=
  let row? : Option PaperRow :=
    if truthyStr doi then db.papers.find? fun p => p.doi == doi
    else if truthyStr arxiv_id then db.papers.find? fun p => p.arxiv_id == arxiv_id
    else if truthyStr title then
      db.papers.find? fun p => likeMatch (likePattern (title.getD "")) p.title.toList
    else none
  match row? with
  | some p =>
    ({ db with
       tracked_papers := db.tracked_papers ++
         [{ id := db.next_tracked_id, paper_id := p.id }]
       next_tracked_id := db.next_tracked_id + 1
       last_insert_rowid := db.next_tracked_id }, some p.id)
  | none => (db, none)

/-- `PlatformConfig` from `src/core/config.py`. -/
structure PlatformConfig where
  enabled : Bool := true
  api_key : Option String := none
  client_id : Option String := none
  client_secret : Option String := none
  author_id : Option String := none
deriving Repr, DecidableEq

/-- The slice of `Config` read by the recommendation engine: the insertion-ordered
`platforms` dict.  The user/database/tracking/alerts/recommendations sections are
never read by any modelled operation and are omitted. -/
structure Config where
  platforms : List (String × PlatformConfig) := []
deriving Repr, DecidableEq

/-- A recommendation record.  The engine and the claims read only `category`,
`priority`, `title` and `description`; the constant `impact`/`effort`/`action`
presentation strings and the `data` payload are omitted. -/
structure Recommendation where
  category : String
  priority : String
  title : String
  description : String
deriving Repr, DecidableEq

/-- The scan of `MetricsCalculator.calculate_h_index` over the descending-sorted
counts: advance while the next count is at least `index + 1`. -/
def hScan : List Int → Nat → Nat
  | [], h => h
  | c :: rest, h => if ((h : Int) + 1) ≤ c then hScan rest (h + 1) else h

/-- Modelled from the spec: `MetricsCalculator.calculate_h_index` lives in
`src/analytics/metrics.py`, which is not among the provided sources.  Spec §4.3:
sort the citation counts descending, then scan to find the largest `index + 1`
with `count ≥ index + 1`; the empty input yields 0. -/
def calculate_h_index (counts : List Int) : Nat :=
  hScan (counts.mergeSort fun a b => decide (b ≤ a)) 0

/-- Modelled from the spec: `MetricsCalculator.identify_low_visibility_papers`
lives in `src/analytics/metrics.py`, which is not among the provided sources.
Spec §4.3: papers whose current citation count is below the threshold and whose
age in years exceeds a minimum of 1 year, sorted ascending by citations; a paper
without a recorded year has no age and is not flagged. -/
def identify_low_visibility_papers (db : DB) (nowYear : Int)
    (threshold : Int := 5) : List (PaperRow × Int × Int) :=
  let flagged := db.get_papers_with_latest_citations.filterMap fun pc =>
    match pc.1.year with
    | some y =>
      if pc.2 < threshold && 1 < nowYear - y then some (pc.1, pc.2, nowYear - y)
      else none
    | none => none
  flagged.mergeSort fun a b => decide (a.2.1 ≤ b.2.1)

/-- `RecommendationEngine._visibility_recommendations`. -/
def visibility_recommendations (db : DB) (nowYear : Int) : List Recommendation :=
  let low_vis := identify_low_visibility_papers db nowYear 5
  let first :=
    match low_vis with
    | top :: _ =>
      [{ category := "visibility", priority := "high",
         title := "Promote under-cited paper",
         description := "Your paper \"" ++ top.1.title.take 50 ++ "...\" has only "
           ++ toString top.2.1 ++ " citations after " ++ toString top.2.2
           ++ " years. Consider promoting it." }]
    | [] => []
  let papers := db.get_papers_with_latest_citations
  let no_doi := papers.filter fun p => !truthyStr p.1.doi
  let second :=
    if no_doi.isEmpty then []
    else
      [{ category := "visibility", priority := "medium",
         title := "Add DOIs to papers",
         description := toString no_doi.length
           ++ " papers are missing DOIs, reducing discoverability." }]
  first ++ second

/-- The body of the `try` in the collaboration rule: a paper counts as solo when
its `authors` field is truthy, `json.loads` succeeds with a list, and that list
has length at most 2.  A `NULL`/empty field or malformed JSON is skipped by the
bare `except`. -/
def isSoloPaper (p : PaperRow) : Bool :=
  match p.authors with
  | some (AuthorsBlob.valid l) => decide (l.length ≤ 2)
  | some AuthorsBlob.malformed => false
  | none => false

/-- `RecommendationEngine._collaboration_recommendations`.  The source compares
`len(solo_papers) > len(papers) * 0.3` with IEEE doubles; for every paper count
below 2^49 that comparison agrees with the exact rational test
`10 * solo > 3 * total` used here. -/
def collaboration_recommendations (db : DB) : List Recommendation :=
  let papers := db.get_papers_with_latest_citations
  let solo_papers := papers.filter fun p => isSoloPaper p.1
  if 10 * solo_papers.length > 3 * papers.length then
    [{ category := "collaboration", priority := "high",
       title := "Increase collaboration",
       description := toString solo_papers.length
         ++ " papers have minimal co-authors. Collaborative papers typically receive more citations." }]
  else []

/-- `RecommendationEngine._trending_recommendations`: one static entry. -/
def trending_recommendations : List Recommendation :=
  [{ category := "trending", priority := "medium",
     title := "Align with current trends",
     description := "Publishing in trending research areas can increase visibility and citations." }]

/-- `RecommendationEngine._profile_recommendations`.  The `SELECT * FROM
sync_status ORDER BY last_sync DESC` result is consumed only for emptiness: the
`oldest_sync` minimum computed from it is never used, so the reminder fires
whenever any row exists. -/
def profile_recommendations (cfg : Config) (db : DB) : List Recommendation :=
  let inactive_platforms := (cfg.platforms.filter fun nc => !nc.2.enabled).map (·.1)
  let first :=
    if inactive_platforms.isEmpty then []
    else
      [{ category := "profile", priority := "medium",
         title := "Activate more platforms",
         description := "You have " ++ toString inactive_platforms.length
           ++ " inactive platforms. More presence increases discoverability." }]
  let second :=
    if db.sync_status.isEmpty then []
    else
      [{ category := "profile", priority := "low",
         title := "Regular updates",
         description := "Regularly update your profiles and citation data." }]
  first ++ second

/-- `RecommendationEngine._priority_score`: `{'high': 3.0, 'medium': 2.0,
'low': 1.0}.get(priority, 0.0)`.  The scores are small integers, so `Nat` stands
in for the Python floats exactly. -/
def priority_score (r : Recommendation) : Nat :=
  match r.priority with
  | "high" => 3
  | "medium" => 2
  | "low" => 1
  | _ => 0

/-- The concatenation of the applicable rule groups, in source order.  Python's
`not category` is truthiness, so `None` and the empty string both select all four
groups. -/
def all_rule_recommendations (cfg : Config) (db : DB) (nowYear : Int)
    (category : Option String) : List Recommendation :=
  (if !truthyStr category || category == some "visibility" then
    visibility_recommendations db nowYear else [])
  ++ (if !truthyStr category || category == some "collaboration" then
    collaboration_recommendations db else [])
  ++ (if !truthyStr category || category == some "trending" then
    trending_recommendations else [])
  ++ (if !truthyStr category || category == some "profile" then
    profile_recommendations cfg db else [])

/-- `RecommendationEngine.generate_recommendations`.  Python's
`list.sort(key=..., reverse=True)` is a stable descending sort, which `mergeSort`
with this comparator implements exactly; `[:limit]` is `take`. -/
def generate_recommendations (cfg : Config) (db : DB) (nowYear : Int)
    (limit : Nat := 5) (category : Option String := none) : List Recommendation :=
  ((all_rule_recommendations cfg db nowYear category).mergeSort fun a b =>
    decide (priority_score b ≤ priority_score a)).take limit

/-! ## Theorems -/

/-- C1: the claim says inserting a paper twice with the same DOI returns the same
identifier and leaves the paper count unchanged.  The code refutes it: with the
arXiv column `NULL`, SQLite's `UNIQUE(doi, arxiv_id)` never conflicts (`NULL`s
are pairwise distinct in unique indices), so the second `INSERT OR IGNORE`
inserts a second row and `add_paper` returns the fresh identifier 2 while the
paper count grows from 1 to 2. -/
theorem c1_add_paper_same_doi_duplicates :
    (DB.empty.add_paper "A Title" (some "10.1000/x")).2 = some 1
    ∧ ((DB.empty.add_paper "A Title" (some "10.1000/x")).1.add_paper "A Title"
        (some "10.1000/x")).2 = some 2
    ∧ ((DB.empty.add_paper "A Title" (some "10.1000/x")).1.add_paper "A Title"
        (some "10.1000/x")).1.get_paper_count = 2
    ∧ (DB.empty.add_paper "A Title" (some "10.1000/x")).1.get_paper_count = 1 := by
  refine ⟨rfl, rfl, rfl, rfl⟩

/-- C3: the claim says tracking is idempotent, with at most one `tracked_papers`
row per paper.  The code refutes it: the table has no uniqueness constraint on
`paper_id`, so `INSERT OR IGNORE` never ignores, and tracking the same paper
twice leaves two rows for it. -/
theorem c3_add_tracked_paper_not_idempotent :
    ((((DB.empty.add_paper "A Title" (some "10.1000/x")).1.add_tracked_paper
        (some "10.1000/x")).1.add_tracked_paper
        (some "10.1000/x")).1.tracked_papers.filter
      (fun tp => tp.paper_id == 1)).length = 2 := by
  rfl

/-- C4 counterexample: the claim says that with neither DOI nor arXiv ID,
`add_paper` on a pre-existing identical title is a silent no-op that adds no row.
In fact the `(NULL, NULL)` key never conflicts in SQLite's unique index, so the
insert succeeds: with "Same Title" already stored, the call returns the fresh
identifier 2 and the paper count grows from 1 to 2. -/
theorem c4_title_only_duplicate_inserts :
    (DB.empty.add_paper "Same Title").1.get_paper_count = 1
    ∧ ((DB.empty.add_paper "Same Title").1.add_paper "Same Title").2 = some 2
    ∧ ((DB.empty.add_paper "Same Title").1.add_paper "Same Title").1.get_paper_count
        = 2 := by
  refine ⟨rfl, rfl, rfl⟩

/-- C4 amended: if neither a DOI nor an arXiv ID is supplied, `add_paper` raises
no error but always inserts a fresh paper row and returns its new identifier,
even when a paper with an identical title already exists; duplicate titles are
not deduplicated. -/
theorem c4_amended_title_only_always_inserts (db : DB) (title : String)
    (year : Option Int) (venue : Option String) (authors : Option (List String))
    (abstract : Option String) (url : Option String)
    (h : db.next_paper_id ≠ 0) :
    (db.add_paper title none none year venue authors abstract url).1.papers.length
      = db.papers.length + 1
    ∧ (db.add_paper title none none year venue authors abstract url).2
      = some db.next_paper_id := by
  have hbeq : (db.next_paper_id == 0) = false := by
    simp [h]
  simp [DB.add_paper, hbeq]

/-- Witness for the amended C4 at a store already holding the same title. -/
theorem c4_amended_witness :
    ((DB.empty.add_paper "Same Title").1.add_paper "Same Title" none none none none
        none none none).1.papers.length
      = (DB.empty.add_paper "Same Title").1.papers.length + 1
    ∧ ((DB.empty.add_paper "Same Title").1.add_paper "Same Title" none none none
        none none none none).2
      = some (DB.empty.add_paper "Same Title").1.next_paper_id :=
  c4_amended_title_only_always_inserts (DB.empty.add_paper "Same Title").1
    "Same Title" none none none none none (by decide)

/-- A `filterMap` whose function never misses is a `map` with any default. -/
theorem filterMap_eq_map_getD {α β : Type} (f : α → Option β) (d : β) :
    ∀ l : List α, (∀ x ∈ l, (f x).isSome) →
      l.filterMap f = l.map fun x => (f x).getD d := by
  intro l
  induction l with
  | nil => intro _; rfl
  | cons a t ih =>
    intro h
    have ha := h a (by simp)
    cases hfa : f a with
    | none => rw [hfa] at ha; simp at ha
    | some b =>
      simp only [List.filterMap_cons, List.map_cons, hfa, Option.getD_some]
      rw [ih fun x hx => h x (by simp [hx])]

/-- Summing a function over the deduplicated key list is the `Finset` sum over
the keys. -/
theorem dedup_map_sum_eq_finset_sum (L : List Nat) (g : Nat → Int) :
    (L.dedup.map g).sum = ∑ pid ∈ L.toFinset, g pid := by
  have h1 : L.dedup.toFinset = L.toFinset := by
    apply List.toFinset_eq_iff_perm_dedup.mpr
    rw [List.dedup_idem]
  rw [← h1, List.sum_toFinset g (List.nodup_dedup L)]

/-- The database used in the specification's worked example for C2: papers A and
B, observations (A, platformX, 10), (A, platformX, 15), (B, platformY, 3). -/
def c2ExampleDB : DB :=
  let a := (DB.empty.add_paper "Paper A").1
  let b := (a.add_paper "Paper B").1
  ((b.add_citation_record 1 "platformX" 10).add_citation_record 1
    "platformX" 15).add_citation_record 2 "platformY" 3

/-- C2: `get_total_citations`, with or without a platform filter, equals the sum
over the distinct papers having at least one (filtered) observation of each
paper's maximum observed citation count; the worked example
[(A, platformX, 10), (A, platformX, 15), (B, platformY, 3)] totals 18, not 28,
and the empty ledger yields 0. -/
theorem c2_total_citations_max_per_paper :
    (∀ (db : DB) (platform : Option String),
      db.get_total_citations platform =
        ∑ pid ∈ ((db.citationRows platform).map (·.paper_id)).toFinset,
          ((((db.citationRows platform).filter fun c => c.paper_id == pid).map
            (·.citation_count)).max?).getD 0)
    ∧ c2ExampleDB.get_total_citations none = 18
    ∧ c2ExampleDB.get_total_citations (some "platformX") = 15
    ∧ DB.empty.get_total_citations none = 0 := by
  refine ⟨?_, rfl, rfl, rfl⟩
  intro db platform
  unfold DB.get_total_citations
  dsimp only
  have hsome : ∀ pid ∈ ((db.citationRows platform).map (·.paper_id)).dedup,
      ((((db.citationRows platform).filter fun c => c.paper_id == pid).map
        (·.citation_count)).max?).isSome := by
    intro pid hpid
    rw [List.mem_dedup] at hpid
    obtain ⟨c, hc, hcp⟩ := List.mem_map.mp hpid
    have hmem : c ∈ (db.citationRows platform).filter fun c' => c'.paper_id == pid := by
      rw [List.mem_filter]
      exact ⟨hc, by simp [hcp]⟩
    cases hmax : (((db.citationRows platform).filter fun c' => c'.paper_id == pid).map
        (·.citation_count)).max? with
    | some b => rfl
    | none =>
      rw [List.max?_eq_none_iff, List.map_eq_nil_iff] at hmax
      rw [hmax] at hmem
      simp at hmem
  rw [filterMap_eq_map_getD _ 0 _ hsome]
  by_cases hids : ((db.citationRows platform).map (·.paper_id)).dedup = []
  · have hL : (db.citationRows platform).map (·.paper_id) = [] := by
      rw [← List.dedup_eq_nil]; exact hids
    simp [hids, hL]
  · have hne : (((db.citationRows platform).map (·.paper_id)).dedup.map fun pid =>
        ((((db.citationRows platform).filter fun c => c.paper_id == pid).map
          (·.citation_count)).max?).getD 0).isEmpty = false := by
      simp [List.isEmpty_iff, hids]
    rw [hne]
    simp only [Bool.false_eq_true, if_false]
    rw [← dedup_map_sum_eq_finset_sum]
    set t := (((db.citationRows platform).map (·.paper_id)).dedup.map fun pid =>
      ((((db.citationRows platform).filter fun c => c.paper_id == pid).map
        (·.citation_count)).max?).getD 0).sum with ht
    by_cases h0 : t = 0
    · simp [h0]
    · simp [h0]

/-- The reminder entry the profile rule appends when any sync row exists. -/
def regularUpdatesRec : Recommendation :=
  { category := "profile", priority := "low", title := "Regular updates",
    description := "Regularly update your profiles and citation data." }

/-- C7: the profile rule group emits the low-priority "Regular updates"
recommendation exactly when at least one `sync_status` row exists — the store and
configuration (hence the recorded last-sync timestamps) are otherwise arbitrary,
so the rule is insensitive to staleness. -/
theorem c7_regular_updates_iff_sync_row_exists (cfg : Config) (db : DB) :
    (∃ r ∈ profile_recommendations cfg db,
      r.title = "Regular updates" ∧ r.priority = "low")
      ↔ db.sync_status ≠ [] := by
  unfold profile_recommendations
  dsimp only
  constructor
  · rintro ⟨r, hr, ht, -⟩ hempty
    rw [List.mem_append] at hr
    rcases hr with hr | hr
    · split at hr
      · simp at hr
      · simp only [List.mem_singleton] at hr
        rw [hr] at ht
        simp at ht
    · rw [List.isEmpty_iff.mpr hempty] at hr
      simp at hr
  · intro hne
    refine ⟨regularUpdatesRec, List.mem_append_right _ ?_, rfl, rfl⟩
    rw [if_neg (by simp [List.isEmpty_iff, hne])]
    exact List.mem_singleton.mpr rfl

/-- Witness for C7: with one sync row recorded, the reminder is emitted. -/
theorem c7_witness :
    ∃ r ∈ profile_recommendations { platforms := [] }
        { sync_status := [{ id := 1, platform := "orcid" }] },
      r.title = "Regular updates" ∧ r.priority = "low" :=
  (c7_regular_updates_iff_sync_row_exists { platforms := [] }
    { sync_status := [{ id := 1, platform := "orcid" }] }).mpr (by decide)

/-- The augmented-paper listing has one entry per paper row. -/
theorem papers_latest_length (db : DB) :
    db.get_papers_with_latest_citations.length = db.papers.length := by
  unfold DB.get_papers_with_latest_citations
  dsimp only
  rw [List.length_mergeSort, List.length_map]

/-- A count over paper fields is unchanged by the join and the descending sort of
the augmented-paper listing. -/
theorem papers_latest_countP (db : DB) (q : PaperRow → Bool) :
    db.get_papers_with_latest_citations.countP (fun pc => q pc.1)
      = db.papers.countP q := by
  unfold DB.get_papers_with_latest_citations
  dsimp only
  rw [List.Perm.countP_eq _ (List.mergeSort_perm _ _), List.countP_map]
  rfl

/-- A store with a single solo-authored paper, on which the collaboration rule
fires. -/
def c6ExampleDB : DB :=
  { papers := [{ id := 1, title := "Solo Paper",
                 authors := some (AuthorsBlob.valid ["A"]) }] }

/-- C6: the collaboration rule emits its single high-priority recommendation
exactly when the papers whose parsed author list has length at most 2 strictly
outnumber 30 percent of all papers; a paper with no authors field or with
malformed author JSON is not counted as solo (and, the functions being total,
causes no failure). -/
theorem c6_collaboration_rule (db : DB) :
    (collaboration_recommendations db ≠ []
      ↔ 10 * db.papers.countP isSoloPaper > 3 * db.papers.length)
    ∧ (∀ r ∈ collaboration_recommendations db,
        r.category = "collaboration" ∧ r.priority = "high")
    ∧ isSoloPaper { id := 1, title := "No Authors Field" } = false
    ∧ isSoloPaper { id := 2, title := "Broken JSON",
                    authors := some AuthorsBlob.malformed } = false
    ∧ isSoloPaper { id := 3, title := "Solo",
                    authors := some (AuthorsBlob.valid ["A"]) } = true := by
  have hfilter : ((db.get_papers_with_latest_citations).filter
      fun p => isSoloPaper p.1).length = db.papers.countP isSoloPaper := by
    rw [← List.countP_eq_length_filter]
    exact papers_latest_countP db isSoloPaper
  refine ⟨?_, ?_, rfl, rfl, rfl⟩
  · unfold collaboration_recommendations
    dsimp only
    rw [hfilter, papers_latest_length]
    split
    · next h => simpa using h
    · next h => simpa using h
  · intro r hr
    unfold collaboration_recommendations at hr
    dsimp only at hr
    split at hr
    · rw [List.mem_singleton] at hr
      rw [hr]
      exact ⟨rfl, rfl⟩
    · simp at hr

/-- Witness for C6: on the single-solo-paper store the rule fires. -/
theorem c6_witness : collaboration_recommendations c6ExampleDB ≠ [] :=
  (c6_collaboration_rule c6ExampleDB).1.mpr (by decide)

/-- A character list free of the `LIKE` wildcards `%` and `_`. -/
def noWild (cs : List Char) : Bool :=
  cs.all fun c => !(c == '%') && !(c == '_')

/-- A trailing bare `%` matches every text. -/
theorem likeStar_empty : ∀ t : List Char, likeStar (likeMatch []) t = true := by
  intro t
  induction t with
  | nil => rfl
  | cons c ts ih => simp [likeStar, ih]

/-- A wildcard-free pattern followed by `%` tests a case-insensitive prefix. -/
theorem likeMatch_append_pct (n : List Char) (hw : noWild n = true) :
    ∀ s, likeMatch (n ++ ['%']) s
      = hasPrefixCS (n.map lowerAscii) (s.map lowerAscii) := by
  induction n with
  | nil =>
    intro s
    show likeMatch ['%'] s = _
    rw [show likeMatch ['%'] s = likeStar (likeMatch []) s from by simp [likeMatch]]
    rw [likeStar_empty]
    rfl
  | cons c cs ih =>
    simp only [noWild, List.all_cons, Bool.and_eq_true, Bool.not_eq_eq_eq_not,
      Bool.not_true] at hw
    obtain ⟨⟨hc1, hc2⟩, hcs⟩ := hw
    have hcs' : noWild cs = true := by
      simp only [noWild]
      exact hcs
    intro s
    cases s with
    | nil =>
      simp [likeMatch, hc1, hasPrefixCS]
    | cons d ds =>
      simp only [List.cons_append, likeMatch, hc1, hc2, Bool.false_eq_true,
        if_false, List.map_cons, hasPrefixCS]
      rw [List.append_eq, ih hcs' ds]

/-- C8 support: the `LIKE '%title%'` test the tracking lookup performs is, for a
wildcard-free title, exactly the ASCII-case-insensitive substring test. -/
theorem likePattern_eq_substrCI (n : List Char) (hw : noWild n = true) :
    ∀ h, likeMatch ('%' :: (n ++ ['%'])) h
      = hasSubstrCS (n.map lowerAscii) (h.map lowerAscii) := by
  intro h
  induction h with
  | nil =>
    rw [show likeMatch ('%' :: (n ++ ['%'])) [] = likeMatch (n ++ ['%']) [] from by
      simp [likeMatch, likeStar]]
    rw [likeMatch_append_pct n hw []]
    cases hm : n.map lowerAscii with
    | nil => rfl
    | cons a as => rfl
  | cons d ds ih =>
    rw [show likeMatch ('%' :: (n ++ ['%'])) (d :: ds)
        = (likeMatch (n ++ ['%']) (d :: ds) || likeMatch ('%' :: (n ++ ['%'])) ds) from by
      simp [likeMatch, likeStar]]
    rw [likeMatch_append_pct n hw (d :: ds), ih]
    rfl

/-- A store holding the single paper "Deep Learning". -/
def c8ExampleDB : DB := (DB.empty.add_paper "Deep Learning" (some "10.1000/dl")).1

/-- C8 counterexample: the claim says the title lookup is a case-sensitive
substring match.  In fact SQLite `LIKE` compares ASCII letters
case-insensitively: the lookup with title argument "deep" resolves the stored
paper "Deep Learning" (and tracks it), even though "deep" is not a
case-sensitive substring of "Deep Learning". -/
theorem c8_counterexample_title_lookup_ignores_case :
    (c8ExampleDB.add_tracked_paper none none (some "deep")).2 = some 1
    ∧ hasSubstrCS "deep".toList "Deep Learning".toList = false := by
  exact ⟨rfl, rfl⟩

/-- C8 amended: the tracking lookup resolves with precedence truthy DOI first,
then truthy arXiv ID, then title — the title test being the
ASCII-case-insensitive substring match of SQLite `LIKE` (stated here for
wildcard-free titles), each returning the first matching row in insertion
order; with no truthy argument, or no matching row, the call returns `None` and
leaves the store untouched rather than crashing. -/
theorem c8_amended_lookup_precedence_and_case (db : DB)
    (doi arxiv_id title : Option String) :
    (truthyStr doi = true →
      (db.add_tracked_paper doi arxiv_id title).2
        = (db.papers.find? fun p => p.doi == doi).map (·.id))
    ∧ (truthyStr doi = false → truthyStr arxiv_id = true →
      (db.add_tracked_paper doi arxiv_id title).2
        = (db.papers.find? fun p => p.arxiv_id == arxiv_id).map (·.id))
    ∧ (truthyStr doi = false → truthyStr arxiv_id = false → truthyStr title = true →
      noWild (title.getD "").toList = true →
      (db.add_tracked_paper doi arxiv_id title).2
        = (db.papers.find? fun p =>
            hasSubstrCS ((title.getD "").toList.map lowerAscii)
              (p.title.toList.map lowerAscii)).map (·.id))
    ∧ (truthyStr doi = false → truthyStr arxiv_id = false → truthyStr title = false →
      db.add_tracked_paper doi arxiv_id title = (db, none))
    ∧ ((db.add_tracked_paper doi arxiv_id title).2 = none →
      (db.add_tracked_paper doi arxiv_id title).1 = db) := by
  refine ⟨?_, ?_, ?_, ?_, ?_⟩
  · intro h1
    unfold DB.add_tracked_paper
    rw [if_pos h1]
    cases db.papers.find? fun p => p.doi == doi <;> rfl
  · intro h1 h2
    unfold DB.add_tracked_paper
    rw [if_neg (by simp [h1]), if_pos h2]
    cases db.papers.find? fun p => p.arxiv_id == arxiv_id <;> rfl
  · intro h1 h2 h3 hw
    unfold DB.add_tracked_paper
    rw [if_neg (by simp [h1]), if_neg (by simp [h2]), if_pos h3]
    have hfun : (fun p : PaperRow =>
        likeMatch (likePattern (title.getD "")) p.title.toList)
        = fun p : PaperRow =>
          hasSubstrCS ((title.getD "").toList.map lowerAscii)
            (p.title.toList.map lowerAscii) := by
      funext p
      exact likePattern_eq_substrCI (title.getD "").toList hw p.title.toList
    rw [likePattern] at hfun
    rw [likePattern, hfun]
    cases db.papers.find? fun p =>
        hasSubstrCS ((title.getD "").toList.map lowerAscii)
          (p.title.toList.map lowerAscii) <;> rfl
  · intro h1 h2 h3
    unfold DB.add_tracked_paper
    rw [if_neg (by simp [h1]), if_neg (by simp [h2]), if_neg (by simp [h3])]
  · intro hnone
    unfold DB.add_tracked_paper at hnone ⊢
    dsimp only at hnone ⊢
    split at hnone
    · simp at hnone
    · rfl

/-- Witness for the amended C8: on the "Deep Learning" store, a truthy DOI takes
precedence, a lower-case title argument still matches, and the empty call is a
no-op returning `None`. -/
theorem c8_amended_witness :
    ((c8ExampleDB.add_tracked_paper (some "10.1000/dl") none none).2
      = (c8ExampleDB.papers.find? fun p => p.doi == some "10.1000/dl").map (·.id))
    ∧ ((c8ExampleDB.add_tracked_paper none none (some "deep")).2
      = (c8ExampleDB.papers.find? fun p =>
          hasSubstrCS ("deep".toList.map lowerAscii)
            (p.title.toList.map lowerAscii)).map (·.id))
    ∧ c8ExampleDB.add_tracked_paper none none none = (c8ExampleDB, none) :=
  ⟨(c8_amended_lookup_precedence_and_case c8ExampleDB (some "10.1000/dl") none
      none).1 rfl,
   (c8_amended_lookup_precedence_and_case c8ExampleDB none none
      (some "deep")).2.2.1 rfl rfl rfl rfl,
   (c8_amended_lookup_precedence_and_case c8ExampleDB none none
      none).2.2.2.1 rfl rfl rfl⟩

/-- C10: a tracked paper with no citation observations is listed by
`get_tracked_papers` with its citations field `NULL` (the `MAX` over an empty
`LEFT JOIN` group, no `COALESCE`), whereas `get_papers_with_latest_citations`
lists the same paper with citations 0 (it wraps the `MAX` in
`COALESCE(..., 0)`). -/
theorem c10_tracked_null_vs_coalesced_zero (db : DB) (p : PaperRow)
    (hp : p ∈ db.papers)
    (ht : ∃ tp ∈ db.tracked_papers, tp.paper_id = p.id)
    (hc : ∀ c ∈ db.citations, c.paper_id ≠ p.id) :
    (p, (none : Option Int)) ∈ db.get_tracked_papers
    ∧ (p, (0 : Int)) ∈ db.get_papers_with_latest_citations := by
  have hmax : db.maxCitation p.id = none := by
    unfold DB.maxCitation
    rw [List.max?_eq_none_iff, List.map_eq_nil_iff, List.filter_eq_nil_iff]
    intro c hcmem
    simp [hc c hcmem]
  constructor
  · unfold DB.get_tracked_papers
    dsimp only
    rw [List.mem_mergeSort]
    rw [List.mem_map]
    refine ⟨p, ?_, by rw [hmax]⟩
    rw [List.mem_filter]
    refine ⟨hp, ?_⟩
    rw [List.any_eq_true]
    obtain ⟨tp, htp, hid⟩ := ht
    exact ⟨tp, htp, by simp [hid]⟩
  · unfold DB.get_papers_with_latest_citations
    dsimp only
    rw [List.mem_mergeSort]
    rw [List.mem_map]
    exact ⟨p, hp, by rw [hmax]; rfl⟩

/-- Witness for C10: one tracked paper, empty citation ledger. -/
theorem c10_witness :
    (({ id := 1, title := "X" } : PaperRow), (none : Option Int))
      ∈ (DB.mk [{ id := 1, title := "X" }] [] [{ id := 1, paper_id := 1 }] [] 2 1 2
          1).get_tracked_papers
    ∧ (({ id := 1, title := "X" } : PaperRow), (0 : Int))
      ∈ (DB.mk [{ id := 1, title := "X" }] [] [{ id := 1, paper_id := 1 }] [] 2 1 2
          1).get_papers_with_latest_citations :=
  c10_tracked_null_vs_coalesced_zero
    (DB.mk [{ id := 1, title := "X" }] [] [{ id := 1, paper_id := 1 }] [] 2 1 2 1)
    { id := 1, title := "X" } (by simp)
    ⟨{ id := 1, paper_id := 1 }, by simp, rfl⟩ (by simp)

/-- The sort key comparison is transitive. -/
theorem recLE_trans : ∀ a b c : Recommendation,
    decide (priority_score b ≤ priority_score a) = true →
    decide (priority_score c ≤ priority_score b) = true →
    decide (priority_score c ≤ priority_score a) = true := by
  intro a b c h1 h2
  simp only [decide_eq_true_eq] at h1 h2 ⊢
  omega

/-- The sort key comparison is total. -/
theorem recLE_total : ∀ a b : Recommendation,
    (decide (priority_score b ≤ priority_score a)
      || decide (priority_score a ≤ priority_score b)) = true := by
  intro a b
  simp only [Bool.or_eq_true, decide_eq_true_eq]
  omega

/-- Stability of the descending priority sort: the entries of any fixed priority
score come out in exactly their emission order. -/
theorem mergeSort_score_filter (l : List Recommendation) (v : Nat) :
    ((l.mergeSort fun a b => decide (priority_score b ≤ priority_score a)).filter
        fun r => priority_score r == v)
      = l.filter fun r => priority_score r == v := by
  have hpw : (l.filter fun r => priority_score r == v).Pairwise
      (fun a b => decide (priority_score b ≤ priority_score a) = true) := by
    rw [List.pairwise_iff_forall_sublist]
    intro a b hsub
    have ha := hsub.subset (List.mem_cons_self a [b])
    have hb := hsub.subset (List.mem_cons_of_mem a (List.mem_cons_self b []))
    have ha' := (List.mem_filter.mp ha).2
    have hb' := (List.mem_filter.mp hb).2
    rw [beq_iff_eq] at ha' hb'
    simp [ha', hb']
  have h1 : (l.filter fun r => priority_score r == v)
      <+ l.mergeSort fun a b => decide (priority_score b ≤ priority_score a) :=
    List.sublist_mergeSort recLE_trans recLE_total hpw (List.filter_sublist l)
  have h3 := List.Sublist.filter (fun r => priority_score r == v) h1
  rw [List.filter_eq_self.mpr fun a ha => (List.mem_filter.mp ha).2] at h3
  have hlen : ((l.mergeSort fun a b =>
      decide (priority_score b ≤ priority_score a)).filter
        fun r => priority_score r == v).length
      = (l.filter fun r => priority_score r == v).length :=
    (List.Perm.filter _ (List.mergeSort_perm l _)).length_eq
  exact (h3.eq_of_length hlen.symm).symm

/-- C5: `generate_recommendations` returns at most `limit` entries, sorted so
that priority weights never increase along the list (hence no medium entry
precedes a high one), and entries of equal weight keep the rules' emission
order: for every score the filtered output is a prefix of the filtered
concatenation of the rule groups. -/
theorem c5_generate_recommendations_ranked (cfg : Config) (db : DB)
    (nowYear : Int) (limit : Nat) (category : Option String) :
    (generate_recommendations cfg db nowYear limit category).length ≤ limit
    ∧ (generate_recommendations cfg db nowYear limit category).Pairwise
        (fun a b => priority_score b ≤ priority_score a)
    ∧ (∀ v : Nat,
        (generate_recommendations cfg db nowYear limit category).filter
            (fun r => priority_score r == v)
          <+: (all_rule_recommendations cfg db nowYear category).filter
            (fun r => priority_score r == v))
    ∧ (∀ a b : Recommendation,
        [a, b] <+ generate_recommendations cfg db nowYear limit category →
        a.priority = "medium" → b.priority ≠ "high") := by
  have hpw : (generate_recommendations cfg db nowYear limit category).Pairwise
      (fun a b => priority_score b ≤ priority_score a) := by
    unfold generate_recommendations
    have hs := List.sorted_mergeSort recLE_trans recLE_total
      (all_rule_recommendations cfg db nowYear category)
    have ht := List.Pairwise.sublist (List.take_sublist limit _) hs
    exact ht.imp fun h => of_decide_eq_true h
  refine ⟨?_, hpw, ?_, ?_⟩
  · unfold generate_recommendations
    exact List.length_take_le _ _
  · intro v
    have hpre := List.take_prefix limit
      ((all_rule_recommendations cfg db nowYear category).mergeSort fun a b =>
        decide (priority_score b ≤ priority_score a))
    have hf := hpre.filter fun r => priority_score r == v
    rw [mergeSort_score_filter] at hf
    exact hf
  · intro a b hsub ha hb
    have hle := List.pairwise_iff_forall_sublist.mp hpw hsub
    have hsa : priority_score a = 2 := by unfold priority_score; rw [ha]; decide
    have hsb : priority_score b = 3 := by unfold priority_score; rw [hb]; decide
    rw [hsa, hsb] at hle
    omega

/-- A configuration with one disabled platform, for the C5 witness. -/
def c5cfg : Config := { platforms := [("orcid", { enabled := false })] }

/-- An empty store with one sync row, for the C5 witness. -/
def c5db : DB := { sync_status := [{ id := 1, platform := "orcid" }] }

/-- The static trending entry. -/
def trendRec : Recommendation :=
  { category := "trending", priority := "medium",
    title := "Align with current trends",
    description := "Publishing in trending research areas can increase visibility and citations." }

/-- The inactive-platforms entry emitted for `c5cfg`. -/
def activateOneRec : Recommendation :=
  { category := "profile", priority := "medium",
    title := "Activate more platforms",
    description := "You have 1 inactive platforms. More presence increases discoverability." }

/-- Witness for C5: with the rules emitting [medium, medium, low] and limit 2,
the output has at most 2 entries and the second medium entry is certified not
high-priority via the no-medium-before-high conjunct. -/
theorem c5_witness :
    (generate_recommendations c5cfg c5db 2024 2 none).length ≤ 2
    ∧ activateOneRec.priority ≠ "high" := by
  have hraw : all_rule_recommendations c5cfg c5db 2024 none
      = [trendRec, activateOneRec, regularUpdatesRec] := by
    simp [all_rule_recommendations, visibility_recommendations,
      collaboration_recommendations, trending_recommendations,
      profile_recommendations, identify_low_visibility_papers,
      DB.get_papers_with_latest_citations, c5cfg, c5db, truthyStr, trendRec,
      activateOneRec, regularUpdatesRec]
    rfl
  have hsorted : ((all_rule_recommendations c5cfg c5db 2024 none).mergeSort
        fun a b => decide (priority_score b ≤ priority_score a))
      = [trendRec, activateOneRec, regularUpdatesRec] := by
    rw [hraw]
    exact List.mergeSort_of_sorted (by decide)
  have hout : generate_recommendations c5cfg c5db 2024 2 none
      = [trendRec, activateOneRec] := by
    unfold generate_recommendations
    rw [hsorted]
    rfl
  refine ⟨(c5_generate_recommendations_ranked c5cfg c5db 2024 2 none).1, ?_⟩
  exact (c5_generate_recommendations_ranked c5cfg c5db 2024 2 none).2.2.2
    trendRec activateOneRec (by rw [hout]) rfl

/-- The descending-order comparison on `Int` is transitive (Bool form). -/
theorem intDescTrans : ∀ a b c : Int, decide (b ≤ a) = true →
    decide (c ≤ b) = true → decide (c ≤ a) = true := by
  intro a b c h1 h2
  simp only [decide_eq_true_eq] at h1 h2 ⊢
  omega

/-- The descending-order comparison on `Int` is total (Bool form). -/
theorem intDescTotal : ∀ a b : Int,
    (decide (b ≤ a) || decide (a ≤ b)) = true := by
  intro a b
  simp only [Bool.or_eq_true, decide_eq_true_eq]
  omega

/-- The scan counter never decreases. -/
theorem hScan_ge : ∀ (s : List Int) (h : Nat), h ≤ hScan s h := by
  intro s
  induction s with
  | nil => intro h; simp [hScan]
  | cons a rest ih =>
    intro h
    by_cases hb : ((h : Int) + 1) ≤ a
    · rw [show hScan (a :: rest) h = hScan rest (h + 1) from by simp [hScan, hb]]
      exact le_trans (Nat.le_succ h) (ih (h + 1))
    · simp [hScan, hb]

/-- On a list bounded by `c`, the scan counter stays at most `c`. -/
theorem hScan_le_of_bound : ∀ (s : List Int) (h : Nat) (c : Int),
    (∀ x ∈ s, x ≤ c) → (h : Int) ≤ c → (hScan s h : Int) ≤ c := by
  intro s
  induction s with
  | nil => intro h c _ hh; simpa [hScan] using hh
  | cons a rest ih =>
    intro h c hall hh
    by_cases hb : ((h : Int) + 1) ≤ a
    · rw [show hScan (a :: rest) h = hScan rest (h + 1) from by simp [hScan, hb]]
      apply ih (h + 1) c fun x hx => hall x (by simp [hx])
      have ha := hall a (by simp)
      push_cast
      omega
    · rw [show hScan (a :: rest) h = h from by simp [hScan, hb]]
      exact hh

/-- On a descending list, the scan's progress is covered by elements at least as
large as its result: the h-index it reports is achieved. -/
theorem hScan_countP : ∀ (s : List Int), s.Pairwise (fun a b => b ≤ a) →
    ∀ h : Nat, hScan s h - h ≤ s.countP fun c => decide ((hScan s h : Int) ≤ c) := by
  intro s
  induction s with
  | nil => intro _ h; simp [hScan]
  | cons a rest ih =>
    intro hpw h
    rw [List.pairwise_cons] at hpw
    obtain ⟨hhead, htail⟩ := hpw
    by_cases hb : ((h : Int) + 1) ≤ a
    · rw [show hScan (a :: rest) h = hScan rest (h + 1) from by simp [hScan, hb]]
      have hge := hScan_ge rest (h + 1)
      have hle : (hScan rest (h + 1) : Int) ≤ a :=
        hScan_le_of_bound rest (h + 1) a hhead (by push_cast; omega)
      have hcount := ih htail (h + 1)
      rw [List.countP_cons, if_pos (by simpa using hle)]
      omega
    · rw [show hScan (a :: rest) h = h from by simp [hScan, hb]]
      simp

/-- On a descending list, at least `m` entries being at least `k` means the
first `m` entries all are. -/
theorem sorted_take_of_countP : ∀ (s : List Int), s.Pairwise (fun a b => b ≤ a) →
    ∀ (k : Int) (m : Nat), m ≤ s.countP (fun c => decide (k ≤ c)) →
    m ≤ s.length ∧ ∀ x ∈ s.take m, k ≤ x := by
  intro s
  induction s with
  | nil =>
    intro _ k m hm
    simp only [List.countP_nil, Nat.le_zero] at hm
    simp [hm]
  | cons a rest ih =>
    intro hpw k m hm
    rw [List.pairwise_cons] at hpw
    obtain ⟨hhead, htail⟩ := hpw
    cases m with
    | zero => simp
    | succ m' =>
      by_cases hka : k ≤ a
      · have hm' : m' ≤ rest.countP fun c => decide (k ≤ c) := by
          rw [List.countP_cons, if_pos (by simpa using hka)] at hm
          omega
        obtain ⟨hlen, htake⟩ := ih htail k m' hm'
        refine ⟨by simp; omega, ?_⟩
        intro x hx
        rw [List.take_succ_cons] at hx
        rcases List.mem_cons.mp hx with hxa | hxr
        · rw [hxa]; exact hka
        · exact htake x hxr
      · have h0 : (a :: rest).countP (fun c => decide (k ≤ c)) = 0 := by
          rw [List.countP_eq_zero]
          intro x hx
          simp only [decide_eq_true_eq]
          rcases List.mem_cons.mp hx with hxa | hxr
          · rw [hxa]; exact hka
          · have hxb := hhead x hxr
            intro hkx
            exact hka (le_trans hkx hxb)
        rw [h0] at hm
        exact (Nat.not_succ_le_zero m' hm).elim

/-- If the first `k - h` entries are all at least `k`, the scan from `h` reaches
at least `k`. -/
theorem hScan_ge_of_take : ∀ (s : List Int) (h k : Nat), h ≤ k →
    k - h ≤ s.length → (∀ x ∈ s.take (k - h), (k : Int) ≤ x) → k ≤ hScan s h := by
  intro s
  induction s with
  | nil =>
    intro h k hhk hlen _
    simp only [List.length_nil, Nat.le_zero] at hlen
    simp [hScan]
    omega
  | cons a rest ih =>
    intro h k hhk hlen htake
    rcases Nat.eq_or_lt_of_le hhk with heq | hlt
    · rw [heq] at *
      exact hScan_ge (a :: rest) k
    · have hd : k - h = (k - (h + 1)) + 1 := by omega
      have ha : (k : Int) ≤ a := by
        apply htake a
        rw [hd, List.take_succ_cons]
        exact List.mem_cons_self a _
      have hb : ((h : Int) + 1) ≤ a := by
        have hk' : ((h : Int) + 1) ≤ (k : Int) := by exact_mod_cast hlt
        omega
      rw [show hScan (a :: rest) h = hScan rest (h + 1) from by simp [hScan, hb]]
      apply ih (h + 1) k hlt
      · simp only [List.length_cons] at hlen
        omega
      · intro x hx
        apply htake x
        rw [hd, List.take_succ_cons]
        exact List.mem_cons_of_mem a hx

/-- The reported h-index is achieved: at least that many counts reach it. -/
theorem calculate_h_index_achieved (l : List Int) :
    calculate_h_index l
      ≤ l.countP fun c => decide ((calculate_h_index l : Int) ≤ c) := by
  unfold calculate_h_index
  have hsorted : (l.mergeSort fun a b => decide (b ≤ a)).Pairwise
      (fun a b : Int => b ≤ a) :=
    (List.sorted_mergeSort intDescTrans intDescTotal l).imp fun hab =>
      of_decide_eq_true hab
  have h := hScan_countP _ hsorted 0
  rw [← List.Perm.countP_eq _ (List.mergeSort_perm l _)]
  simpa using h

/-- The reported h-index is maximal among achieved values. -/
theorem le_calculate_h_index (l : List Int) (k : Nat)
    (hk : k ≤ l.countP fun c => decide ((k : Int) ≤ c)) :
    k ≤ calculate_h_index l := by
  unfold calculate_h_index
  have hsorted : (l.mergeSort fun a b => decide (b ≤ a)).Pairwise
      (fun a b : Int => b ≤ a) :=
    (List.sorted_mergeSort intDescTrans intDescTotal l).imp fun hab =>
      of_decide_eq_true hab
  have hk' : k ≤ (l.mergeSort fun a b => decide (b ≤ a)).countP
      fun c => decide ((k : Int) ≤ c) := by
    rw [List.Perm.countP_eq _ (List.mergeSort_perm l _)]
    exact hk
  obtain ⟨hlen, htake⟩ := sorted_take_of_countP _ hsorted (k : Int) k hk'
  apply hScan_ge_of_take _ 0 k (Nat.zero_le k)
  · simpa using hlen
  · rw [Nat.sub_zero]
    exact htake

/-- Pointwise growth of the counts never shrinks a threshold count. -/
theorem countP_le_of_forall₂ : ∀ {l l' : List Int},
    List.Forall₂ (· ≤ ·) l l' → ∀ k : Int,
    (l.countP fun c => decide (k ≤ c)) ≤ l'.countP fun c => decide (k ≤ c) := by
  intro l l' hf
  induction hf with
  | nil => intro k; simp
  | @cons a b t t' hab htl ih =>
    intro k
    rw [List.countP_cons, List.countP_cons]
    have hrest := ih k
    by_cases hka : k ≤ a
    · rw [if_pos (by simpa using hka), if_pos (by simpa using le_trans hka hab)]
      omega
    · rw [if_neg (by simpa using hka)]
      by_cases hkb : k ≤ b
      · rw [if_pos (by simpa using hkb)]
        omega
      · rw [if_neg (by simpa using hkb)]
        omega

/-- Raising one entry (or touching none, out of range) grows the list
pointwise. -/
theorem forall₂_set : ∀ (l : List Int) (i : Nat) (x : Int),
    (∀ c : Int, l[i]? = some c → c ≤ x) → List.Forall₂ (· ≤ ·) l (l.set i x) := by
  intro l
  induction l with
  | nil => intro i x _; simp
  | cons a t ih =>
    intro i x hx
    cases i with
    | zero =>
      rw [List.set_cons_zero]
      exact List.Forall₂.cons (hx a (by simp))
        (List.forall₂_same.mpr fun c _ => le_refl c)
    | succ i' =>
      rw [List.set_cons_succ]
      exact List.Forall₂.cons (le_refl a)
        (ih i' x fun c hc => hx c (by simpa using hc))

/-- C9: modelled from the spec (`calculate_h_index` lives in the absent
`src/analytics/metrics.py`): the h-index of the empty sequence is 0, and
increasing any single entry of a citation-count sequence never decreases the
h-index. -/
theorem c9_h_index_empty_and_monotone :
    calculate_h_index ([] : List Int) = 0
    ∧ ∀ (l : List Int) (i : Nat) (x : Int),
        (∀ c : Int, l[i]? = some c → c ≤ x) →
        calculate_h_index l ≤ calculate_h_index (l.set i x) := by
  constructor
  · simp [calculate_h_index, hScan]
  · intro l i x hx
    have hf := forall₂_set l i x hx
    apply le_calculate_h_index
    exact le_trans (calculate_h_index_achieved l) (countP_le_of_forall₂ hf _)

/-- Witness for C9: raising the middle count of [2, 0, 1] to 5 does not lower
the h-index. -/
theorem c9_witness :
    calculate_h_index ([2, 0, 1] : List Int)
      ≤ calculate_h_index (([2, 0, 1] : List Int).set 1 5) :=
  c9_h_index_empty_and_monotone.2 [2, 0, 1] 1 5 (by
    intro c hc
    simp at hc
    omega)

end Elephant
